import Mathlib

/-!
Shallow embedding of the OPENBMTC client-side data resolution layer
(`src/utils/api.ts` and the batch route loader of the stop-details screen).

Conventions of the embedding:
* JavaScript strings are Lean `String`; the only falsy string is `""`, and
  `a || b` on strings is `jsOrStr`.
* Absent / `undefined` / non-array fields are `Option`; `x || dflt` on an
  optional field is `Option.getD` composed with the falsy check where the
  present value can itself be falsy.
* Geometry payloads are never inspected by the code, only passed through;
  they are modelled as opaque `String` tokens.
* `Array.prototype.sort` with a comparator `c` is modelled as the stable
  `List.insertionSort` over the total preorder `a ≼ b := c a b ≤ 0`
  (JS sort is stable per the ES spec, and any two stable sorts for the
  same total preorder agree).
* `String.prototype.localeCompare` is modelled as code-point order on the
  embedded strings (`jsLocaleCompare`): it is locale-dependent upstream, but
  the code only uses its sign as a total preorder.
* `Object.keys` enumeration follows the ES own-property order: keys that are
  canonical array indices first, in ascending numeric order, then the
  remaining string keys in insertion order (`jsKeysOrder`).
-/

namespace OpenBMTC

/-- Opaque geometry payload (never inspected by the code under study). -/
abbrev Geom := String

/-- JS `a || b` for strings: `""` is the only falsy string. -/
def jsOrStr (a b : String) : String := if a = "" then b else a

/-- Strict code-point lexicographic order on character lists (structural,
so that concrete instances evaluate inside the kernel). -/
def charsLt : List Char → List Char → Bool
  | _, [] => false
  | [], _ :: _ => true
  | a :: as, b :: bs => a < b || (a = b && charsLt as bs)

/-- Strict code-point order on strings. -/
def jsLt (a b : String) : Bool := charsLt a.data b.data

/-- Sign of JS `a.localeCompare(b)`, modelled with code-point order. -/
def jsLocaleCompare (a b : String) : Int :=
  if jsLt a b then -1 else if a = b then 0 else 1

/-- `String.prototype.toLowerCase`, modelled with `Char.toLower`. -/
def jsToLower (s : String) : String := ⟨s.data.map Char.toLower⟩

/-- `String.prototype.trim`: strip whitespace from both ends. -/
def jsTrim (s : String) : String :=
  ⟨((s.data.dropWhile Char.isWhitespace).reverse.dropWhile Char.isWhitespace).reverse⟩

/-- One upstream GeoJSON feature, restricted to the fields the code reads.
`fid` is `feature.id`; the remaining fields live under `feature.properties`
(`pid` is `feature.properties.id`) except `geometry` which is
`feature.geometry`.  `none` models an absent / `undefined` field. -/
structure Feature where
  fid : Option String := none
  geometry : Option Geom := none
  name : Option String := none
  pid : Option String := none
  direction_id : Option String := none
  direction : Option String := none
  stop_sequence : Option Int := none
  trip_count : Option Int := none
  trip_list : Option (List String) := none
  route_count : Option Int := none
  route_list : Option (List String) := none
deriving Repr, DecidableEq

/-- The `Stop` record of `types/database.ts` (geometry fields optional). -/
structure Stop where
  _id : String
  id : String
  name : String
  trip_count : Int := 0
  trip_list : List String := []
  route_count : Int := 0
  route_list : List String := []
  geometry : Option Geom := none
  location : Option Geom := none
deriving Repr, DecidableEq

/-- `mapFeatureToStop` (api.ts:111-121): every `x || y` chain is spelled
out with `jsOrStr` / `getD` exactly as in the source. -/
def mapFeatureToStop (f : Feature) : Stop :=
  let ident := jsOrStr (f.pid.getD "") (jsOrStr (f.name.getD "") (f.fid.getD ""))
  { _id := ident
    id := ident
    name := jsOrStr (f.name.getD "") "Unknown Stop"
    trip_count := f.trip_count.getD 0
    trip_list := f.trip_list.getD []
    route_count := f.route_count.getD 0
    route_list := f.route_list.getD []
    geometry := f.geometry
    location := f.geometry }

/-- `fetchAllStops` (api.ts:123-132), with the remote reply abstracted to
its `features` array (`none` = field absent or not an array). -/
def fetchAllStops (features : Option (List Feature)) : List Stop :=
  ((features.getD []).map mapFeatureToStop).filter (fun s => s.name != "")

/-! ### Direction grouping and `Object.keys` enumeration order -/

/-- `stop.properties?.direction_id || stop.properties?.direction || '0'`. -/
def dirOf (f : Feature) : String :=
  jsOrStr (f.direction_id.getD "") (jsOrStr (f.direction.getD "") "0")

/-- `a.properties?.stop_sequence || 0` (a present `0` is falsy and also
yields `0`, so `getD 0` is exact). -/
def seqOf (f : Feature) : Int := f.stop_sequence.getD 0

/-- Direction groups as an association list in key-insertion order. -/
abbrev DirGroups := List (String × List Feature)

/-- Append `f` to the group keyed `k`, creating the group at the end on
first encounter (JS object property insertion). -/
def insertGroup : DirGroups → String → Feature → DirGroups
  | [], k, f => [(k, [f])]
  | (k2, fs) :: rest, k, f =>
    if k2 = k then (k2, fs ++ [f]) :: rest
    else (k2, fs) :: insertGroup rest k f

/-- The `stopsByDirection` record built by the `forEach` at api.ts:183-189. -/
def groupByDirection (stops : List Feature) : DirGroups :=
  stops.foldl (fun gs f => insertGroup gs (dirOf f) f) []

/-- `stopsByDirection[k]` as an `Option`. -/
def findGroup (groups : DirGroups) (k : String) : Option (List Feature) :=
  (groups.find? (fun p => p.1 == k)).map Prod.snd

/-- `stopsByDirection[k].length` for a key known to exist (absent ↦ 0). -/
def groupLen (groups : DirGroups) (k : String) : Nat :=
  ((findGroup groups k).getD []).length

/-- Canonical decimal digit string: "0", or digits starting with 1-9. -/
def isCanonicalDigits : List Char → Bool
  | [] => false
  | [c] => c.isDigit
  | c :: rest => c.isDigit && c != '0' && rest.all (fun d => d.isDigit)

/-- Numeric value of a digit string. -/
def digitsVal (cs : List Char) : Nat :=
  cs.foldl (fun n c => n * 10 + (c.toNat - '0'.toNat)) 0

/-- A canonical array-index key in the sense of the ES spec: the decimal
form of some `n < 2^32 - 1` with no leading zeros. -/
def jsArrayIndex (s : String) : Option Nat :=
  if isCanonicalDigits s.data then
    if digitsVal s.data < 4294967295 then some (digitsVal s.data) else none
  else none

/-- ES own-property enumeration order of `Object.keys`: array-index keys
ascending numerically, then the remaining keys in insertion order. -/
def jsKeysOrder (keys : List String) : List String :=
  (keys.filter (fun k => (jsArrayIndex k).isSome)).insertionSort
      (fun a b => (jsArrayIndex a).getD 0 ≤ (jsArrayIndex b).getD 0)
    ++ keys.filter (fun k => (jsArrayIndex k).isNone)

/-- The selection loop of api.ts:191-199: `maxStops = 0`,
`selectedDirection = Object.keys(stopsByDirection)[0]`, then one pass
updating both on a strictly larger group. -/
def selectLoop (cnt : String → Nat) (keys : List String) : Nat × Option String :=
  keys.foldl (fun acc k => if acc.1 < cnt k then (cnt k, some k) else acc)
    (0, keys.head?)

/-- Result row of `extractRouteEndpoints` (the `Omit<RouteEndpoints,'routeId'>`). -/
structure RouteEndpointsData where
  fromName : String
  toName : String
  isCircular : Bool
  stopCount : Nat
deriving Repr, DecidableEq

/-- `[...targetStops].sort((a, b) => seqA - seqB)`: stable sort by
`stop_sequence` (missing treated as 0). -/
def sortBySeq (fs : List Feature) : List Feature :=
  fs.insertionSort (fun a b => seqOf a ≤ seqOf b)

/-- `extractRouteEndpoints` (api.ts:176-214), with the route payload
abstracted to its `features` array (`none` = absent or not an array). -/
def extractRouteEndpoints (features : Option (List Feature)) : RouteEndpointsData :=
  let stops := features.getD []
  if stops.isEmpty then ⟨"", "", false, 0⟩ else
    let groups := groupByDirection stops
    let keys := jsKeysOrder (groups.map Prod.fst)
    let sel := (selectLoop (groupLen groups) keys).2
    let targetStops := match sel.bind (findGroup groups) with
      | some g => g
      | none => stops
    let sorted := sortBySeq targetStops
    let stopCount := sorted.length
    let firstStop := (sorted.head?.bind (fun f => f.name)).getD ""
    let lastStop := (sorted.getLast?.bind (fun f => f.name)).getD ""
    ⟨firstStop, lastStop, firstStop != "" && firstStop == lastStop, stopCount⟩

/-! ### Fallback route synthesis (api.ts:143-160) -/

/-- `matched.sort((a, b) => a.name.localeCompare(b.name))`. -/
def sortByName (stops : List Stop) : List Stop :=
  stops.insertionSort (fun a b => jsLocaleCompare a.name b.name ≤ 0)

/-- `buildFallbackRouteStops` (api.ts:143-160): the full stop index is the
already-loaded list `allStops` (the result of `getAllStopsCached`). -/
def buildFallbackRouteStops (allStops : List Stop) (routeId : String) : List Feature :=
  let normalizedRouteId := jsTrim routeId
  let matched := allStops.filter (fun s => s.route_list.contains normalizedRouteId)
  if matched.isEmpty then [] else
    (sortByName matched).enum.map (fun p =>
      { geometry := p.2.geometry <|> p.2.location
        name := some p.2.name
        stop_sequence := some ((p.1 : Int) + 1) })

/-! ### Time-bounded cache (api.ts:35-109) -/

/-- A parsed, well-typed cache envelope. -/
structure Envelope (α : Type) where
  updatedAt : Int
  payload : α
deriving Repr, DecidableEq

/-- What the persistent store may hold under a cache key.
`unparseable`: `JSON.parse` throws on the raw string.
`malformed`: parses, but fails the structural check at api.ts:45/83
(falsy value, non-numeric `updatedAt`, or payload of the wrong shape).
`wellFormed`: parses and passes the structural check. -/
inductive RawBlob (α : Type)
  | unparseable
  | malformed
  | wellFormed (updatedAt : Int) (payload : α)
deriving Repr, DecidableEq

/-- The two copies owned by one cache key: the module-level in-process
variable and the persisted blob. -/
structure CacheState (α : Type) where
  inMemory : Option (Envelope α) := none
  persisted : Option (RawBlob α) := none
deriving Repr, DecidableEq

/-- 24h TTL shared by both cache keys (api.ts:9-10). -/
def TTL_MS : Int := 24 * 60 * 60 * 1000

/-- The persisted-blob part of the loaders (api.ts:41-57 / 79-95): read the
raw blob, delete it when the structural check fails or it is expired, adopt
it as the in-process copy otherwise.  A raw string on which `JSON.parse`
throws lands in the `catch` (api.ts:58-61 / 96-99), which returns null
without deleting. -/
def loadPersisted (now : Int) (st : CacheState α) :
    Option (Envelope α) × CacheState α :=
  match st.persisted with
  | none => (none, st)
  | some .unparseable => (none, st)
  | some .malformed => (none, { st with persisted := none })
  | some (.wellFormed u p) =>
    if now - u > TTL_MS then (none, { st with persisted := none })
    else (some ⟨u, p⟩, { st with inMemory := some ⟨u, p⟩ })

/-- `loadAllStopsCache` / `loadRouteEndpointsCache` (api.ts:35-62, 73-100):
serve the in-process copy while fresh, else fall back to the persisted
blob. -/
def loadFreshCache (now : Int) (st : CacheState α) :
    Option (Envelope α) × CacheState α :=
  match st.inMemory with
  | some env =>
    if now - env.updatedAt ≤ TTL_MS then (some env, st) else loadPersisted now st
  | none => loadPersisted now st

/-- `saveAllStopsCache` / `saveRouteEndpointsCache` (api.ts:64-71, 102-109):
assign the in-process copy and persist it (persistence failure is swallowed;
the success path is modelled). -/
def saveCache (st : CacheState α) (env : Envelope α) : CacheState α :=
  { st with
    inMemory := some env
    persisted := some (.wellFormed env.updatedAt env.payload) }

/-! ### Route detail with fallback (api.ts:332-379) -/

/-- The `meta` object attached to a synthesized feature collection. -/
structure RouteMeta where
  routeId : String
  fallback : Bool
  count : Nat
deriving Repr, DecidableEq

/-- A route-detail feature collection: `features` is `none` when the field
is absent or not an array; remote payloads carry no `meta.fallback`. -/
structure RouteData where
  features : Option (List Feature) := none
  meta : Option RouteMeta := none
deriving Repr, DecidableEq

/-- One remote HTTP interaction: either a payload or an axios failure
carrying the optional HTTP status (`error.response?.status`). -/
inductive RemoteReply (α : Type)
  | ok (data : α)
  | fail (status : Option Nat)
deriving Repr, DecidableEq

/-- `getRouteDetailsAPI` (api.ts:332-379).  The inner
`throw new Error('Route details not found')` at api.ts:357 is caught by the
function's own `catch` (api.ts:358), which re-runs the fallback — empty
again against the same stop index — and rethrows, so the net result is the
error. -/
def getRouteDetailsAPI (remote : RemoteReply RouteData) (allStops : List Stop)
    (routeId : String) : Except String RouteData :=
  let normalizedRouteId := jsTrim routeId
  match remote with
  | .ok data =>
    let features := data.features.getD []
    if features.length > 0 then .ok data
    else
      let fallbackFeatures := buildFallbackRouteStops allStops normalizedRouteId
      if fallbackFeatures.length > 0 then
        .ok { features := some fallbackFeatures
              meta := some ⟨normalizedRouteId, true, fallbackFeatures.length⟩ }
      else .error "Route details not found"
  | .fail _ =>
    let fallbackFeatures := buildFallbackRouteStops allStops normalizedRouteId
    if fallbackFeatures.length > 0 then
      .ok { features := some fallbackFeatures
            meta := some ⟨normalizedRouteId, true, fallbackFeatures.length⟩ }
    else .error "remote request failed"

/-! ### Stop and route search (api.ts:242-327, 408-432) -/

/-- `normalizeQuery` (api.ts:12): `query.trim().toLowerCase()`. -/
def normalizeQuery (q : String) : String := jsToLower (jsTrim q)

/-- Index of the first occurrence of `pat` in `l`, if any. -/
def subIdx (pat : List Char) : List Char → Option Nat
  | [] => if pat.isEmpty then some 0 else none
  | c :: t =>
    if pat.isPrefixOf (c :: t) then some 0 else (subIdx pat t).map (· + 1)

/-- JS `s.indexOf(pat)`: first index or -1. -/
def jsIndexOf (s pat : String) : Int :=
  match subIdx pat.data s.data with
  | some n => n
  | none => -1

/-- JS `s.includes(pat)` (equivalently `s.indexOf(pat) !== -1`). -/
def jsIncludes (s pat : String) : Bool := (subIdx pat.data s.data).isSome

/-- Result of `searchStopsAPI`. -/
structure StopsResult where
  stops : List Stop
  total : Nat
deriving Repr, DecidableEq

/-- The comparator of api.ts:308-317: first-occurrence index, then name
length, then `localeCompare`, all on the lowercased names. -/
def stopCmp (normalizedQuery : String) (a b : Stop) : Int :=
  let aName := jsToLower a.name
  let bName := jsToLower b.name
  let aIndex := jsIndexOf aName normalizedQuery
  let bIndex := jsIndexOf bName normalizedQuery
  if aIndex ≠ bIndex then aIndex - bIndex
  else if aName.length ≠ bName.length then (aName.length : Int) - bName.length
  else jsLocaleCompare aName bName

/-- `searchStopsAPI` (api.ts:299-327).  `source` models
`getAllStopsCached()`: an error there is the only way into the `catch` at
api.ts:323-326, which degrades to an empty result. -/
def searchStopsAPI (source : Except String (List Stop)) (query : String)
    (limit : Nat) : StopsResult :=
  match source with
  | .error _ => ⟨[], 0⟩
  | .ok allStops =>
    let normalizedQuery := normalizeQuery query
    let matched := allStops.filter (fun s => jsIncludes (jsToLower s.name) normalizedQuery)
    let sorted := matched.insertionSort (fun a b => stopCmp normalizedQuery a b ≤ 0)
    ⟨sorted.take limit, matched.length⟩

/-- The placeholder route record synthesized at api.ts:269-279. -/
structure RouteStub where
  _id : String
  name : String
  full_name : String
  trip_count : Int
  trip_list : List String
  stop_count : Int
  stop_list : List String
  id : String
  direction_id : Int
deriving Repr, DecidableEq

def mkRouteStub (routeName : String) : RouteStub :=
  ⟨routeName, routeName, "Route " ++ routeName, 0, [], 0, [], routeName, 0⟩

/-- Result of `searchRoutesAPI`. -/
structure RoutesResult where
  routes : List RouteStub
  total : Nat
deriving Repr, DecidableEq

/-- JS `Set` insertion: add at the end unless already present. -/
def addUnique (seen : List String) (r : String) : List String :=
  if seen.contains r then seen else seen ++ [r]

/-- The scan at api.ts:257-266: collect, in insertion order, the distinct
route names of the reply's stops whose lowercased form contains the
lowercased query. -/
def collectRoutes (query : String) (stops : List Feature) : List String :=
  stops.foldl (fun acc stop =>
    match stop.route_list with
    | none => acc
    | some routes =>
      routes.foldl (fun acc2 route =>
        if jsIncludes (jsToLower route) (jsToLower query) then addUnique acc2 route
        else acc2) acc) []

/-- `searchRoutesAPI` (api.ts:242-293): a 404 from the remote becomes an
empty result; any other failure is rethrown (api.ts:285-292). -/
def searchRoutesAPI (remote : RemoteReply RouteData) (query : String)
    (limit : Nat) : Except (Option Nat) RoutesResult :=
  match remote with
  | .ok data =>
    let stops := data.features.getD []
    let routes := ((collectRoutes query stops).take limit).map mkRouteStub
    .ok ⟨routes, routes.length⟩
  | .fail status =>
    if status = some 404 then .ok ⟨[], 0⟩ else .error status

/-- Result of `searchAll`. -/
structure SearchAllResult where
  stops : List Stop
  routes : List RouteStub
  totalStops : Nat
  totalRoutes : Nat
deriving Repr, DecidableEq

/-- `searchAll` (api.ts:408-432): route search first, then stop search, one
shared `try`; any escaped failure degrades the whole answer to empty. -/
def searchAll (routeRemote : RemoteReply RouteData)
    (stopsSource : Except String (List Stop)) (query : String) (limit : Nat) :
    SearchAllResult :=
  match searchRoutesAPI routeRemote query limit with
  | .error _ => ⟨[], [], 0, 0⟩
  | .ok routesResult =>
    let stopsResult := searchStopsAPI stopsSource query limit
    ⟨stopsResult.stops, routesResult.routes, stopsResult.total, routesResult.total⟩

/-! ### Route endpoint resolver (api.ts:216-236) -/

/-- The exported `RouteEndpoints` record. -/
structure RouteEndpoints where
  routeId : String
  fromName : String
  toName : String
  isCircular : Bool
  stopCount : Nat
deriving Repr, DecidableEq

/-- `byRoute` as an association list in property insertion order. -/
def lookupKey (m : List (String × β)) (k : String) : Option β :=
  (m.find? (fun p => p.1 == k)).map Prod.snd

/-- JS `{ ...old, [k]: v }`: an existing key keeps its position with the
value replaced, a new key is appended. -/
def upsertKey (m : List (String × β)) (k : String) (v : β) : List (String × β) :=
  if (m.find? (fun p => p.1 == k)).isSome then
    m.map (fun p => if p.1 == k then (p.1, v) else p)
  else m ++ [(k, v)]

abbrev RouteMap := List (String × RouteEndpoints)

/-- `getRouteEndpoints` (api.ts:216-236) as a state transformer over the
route-endpoints cache.  `remote` is the aggregated-endpoint reply for this
route id and `allStops` the loaded stop index backing the fallback. -/
def getRouteEndpoints (remote : RemoteReply RouteData) (allStops : List Stop)
    (now : Int) (st : CacheState RouteMap) (routeId : String) :
    Except String RouteEndpoints × CacheState RouteMap :=
  let trimmedRouteId := jsTrim routeId
  let load := loadFreshCache now st
  let cached := load.1
  let st1 := load.2
  match cached.bind (fun env => lookupKey env.payload trimmedRouteId) with
  | some entry => (.ok entry, st1)
  | none =>
    match getRouteDetailsAPI remote allStops trimmedRouteId with
    | .error e => (.error e, st1)
    | .ok routeData =>
      let e := extractRouteEndpoints routeData.features
      let result : RouteEndpoints :=
        ⟨trimmedRouteId, e.fromName, e.toName, e.isCircular, e.stopCount⟩
      let nextPayload :=
        upsertKey ((cached.map (fun env => env.payload)).getD []) trimmedRouteId result
      (.ok result, saveCache st1 ⟨now, nextPayload⟩)

/-! ### Batch route loading with cancellation (src/unnamed/part_001:68-114) -/

/-- The `RouteSummary` of the stop-details screen:
`RouteEndpoints & \x7b error?: boolean \x7d`. -/
structure RouteSummary where
  routeId : String
  fromName : String
  toName : String
  isCircular : Bool
  stopCount : Nat
  error : Bool := false
deriving Repr, DecidableEq

/-- `Array.from(new Set((stop.route_list || []).filter(Boolean)))`. -/
def uniqueRoutesOf (route_list : List String) : List String :=
  (route_list.filter (fun r => r != "")).foldl addUnique []

/-- `uniqueRoutes.slice(i, i + batchSize)` chunking of the `for` loop at
part_001:80-81, written with list-length fuel so it stays structural. -/
def chunkFuel (batchSize : Nat) : Nat → List α → List (List α)
  | _, [] => []
  | 0, _ => []
  | Nat.succ fuel, l => l.take batchSize :: chunkFuel batchSize fuel (l.drop batchSize)

def chunkList (batchSize : Nat) (l : List α) : List (List α) :=
  chunkFuel batchSize l.length l

/-- `setRouteSummaries` merge at part_001:95-101:
`results.forEach(result => next[result.routeId] = result)`. -/
def mergeResults (m : List (String × RouteSummary)) (results : List RouteSummary) :
    List (String × RouteSummary) :=
  results.foldl (fun acc r => upsertKey acc r.routeId r) m

/-- Observable outcome of one `loadRoutes` run: the accumulated summary map
and the indices of the batches whose remote requests were issued. -/
structure BatchRun where
  summaries : List (String × RouteSummary) := []
  calls : List Nat := []
deriving Repr, DecidableEq

/-- The batch loop of part_001:80-102.  `resolve` is the per-route
`getRouteEndpoints` call with its `catch` already folded in (a failure
yields the zeroed summary with `error := true`, part_001:86-89), so it is a
total oracle.  `cancelled j` is the value of the closure-captured
`cancelled` flag at the check that follows batch `j`'s completion — the
only points where the flag is read. -/
def runBatches (resolve : String → RouteSummary) (cancelled : Nat → Bool) :
    List (List String) → Nat → BatchRun → BatchRun
  | [], _, st => st
  | batch :: rest, j, st =>
    let st1 : BatchRun := { st with calls := st.calls ++ [j] }
    if cancelled j then st1
    else
      runBatches resolve cancelled rest (j + 1)
        { st1 with summaries := mergeResults st1.summaries (batch.map resolve) }

/-- `loadRoutes` (part_001:78-107) with `batchSize = 6`. -/
def loadRoutes (resolve : String → RouteSummary) (cancelled : Nat → Bool)
    (route_list : List String) : BatchRun :=
  runBatches resolve cancelled (chunkList 6 (uniqueRoutesOf route_list)) 0 {}

/-! ## Order facts about the embedded string comparison -/

theorem charsLt_trans : ∀ {as bs cs : List Char},
    charsLt as bs = true → charsLt bs cs = true → charsLt as cs = true := by
  intro as
  induction as with
  | nil =>
    intro bs cs h1 h2
    cases cs with
    | nil => cases bs <;> simp [charsLt] at h2
    | cons c cs => simp [charsLt]
  | cons a as ih =>
    intro bs cs h1 h2
    cases bs with
    | nil => simp [charsLt] at h1
    | cons b bs =>
      cases cs with
      | nil => simp [charsLt] at h2
      | cons c cs =>
        simp only [charsLt, Bool.or_eq_true, Bool.and_eq_true,
          decide_eq_true_eq] at h1 h2 ⊢
        rcases h1 with h1 | ⟨rfl, h1⟩
        · rcases h2 with h2 | ⟨rfl, h2⟩
          · exact Or.inl (lt_trans h1 h2)
          · exact Or.inl h1
        · rcases h2 with h2 | ⟨rfl, h2⟩
          · exact Or.inl h2
          · exact Or.inr ⟨rfl, ih h1 h2⟩

theorem charsLt_trichot :
    ∀ (as bs : List Char), charsLt as bs = true ∨ as = bs ∨ charsLt bs as = true := by
  intro as
  induction as with
  | nil =>
    intro bs
    cases bs with
    | nil => exact Or.inr (Or.inl rfl)
    | cons b bs => exact Or.inl (by simp [charsLt])
  | cons a as ih =>
    intro bs
    cases bs with
    | nil => exact Or.inr (Or.inr (by simp [charsLt]))
    | cons b bs =>
      rcases lt_trichotomy a b with h | rfl | h
      · exact Or.inl (by simp [charsLt, h])
      · rcases ih bs with h | rfl | h
        · exact Or.inl (by simp [charsLt, h])
        · exact Or.inr (Or.inl rfl)
        · exact Or.inr (Or.inr (by simp [charsLt, h]))
      · exact Or.inr (Or.inr (by simp [charsLt, h]))

theorem string_eq_of_data_eq {a b : String} (h : a.data = b.data) : a = b := by
  cases a; cases b; simp_all

theorem jsLocaleCompare_nonpos_iff {a b : String} :
    jsLocaleCompare a b ≤ 0 ↔ (charsLt a.data b.data = true ∨ a = b) := by
  unfold jsLocaleCompare jsLt
  by_cases h1 : charsLt a.data b.data = true
  · simp [h1]
  · by_cases h2 : a = b
    · subst h2
      simp [h1]
    · simp [h1, h2]

theorem localeLe_trans {a b c : String}
    (h1 : jsLocaleCompare a b ≤ 0) (h2 : jsLocaleCompare b c ≤ 0) :
    jsLocaleCompare a c ≤ 0 := by
  rw [jsLocaleCompare_nonpos_iff] at h1 h2 ⊢
  rcases h1 with h1 | rfl
  · rcases h2 with h2 | rfl
    · exact Or.inl (charsLt_trans h1 h2)
    · exact Or.inl h1
  · exact h2

theorem localeLe_total (a b : String) :
    jsLocaleCompare a b ≤ 0 ∨ jsLocaleCompare b a ≤ 0 := by
  rcases charsLt_trichot a.data b.data with h | h | h
  · exact Or.inl (jsLocaleCompare_nonpos_iff.mpr (Or.inl h))
  · exact Or.inl (jsLocaleCompare_nonpos_iff.mpr (Or.inr (string_eq_of_data_eq h)))
  · exact Or.inr (jsLocaleCompare_nonpos_iff.mpr (Or.inl h))

/-! ## Structural lemmas about `extractRouteEndpoints` -/

theorem jsKeysOrder_singleton (k : String) : jsKeysOrder [k] = [k] := by
  by_cases h : (jsArrayIndex k).isSome
  · simp [jsKeysOrder, List.filter, h, Option.isNone]
    cases hh : jsArrayIndex k <;> simp_all [List.insertionSort]
  · simp [jsKeysOrder, List.filter, h, Option.isNone]
    cases hh : jsArrayIndex k <;> simp_all

theorem extractRouteEndpoints_circular_eq (features : Option (List Feature)) :
    (extractRouteEndpoints features).isCircular =
      ((extractRouteEndpoints features).fromName != "" &&
        (extractRouteEndpoints features).fromName ==
          (extractRouteEndpoints features).toName) := by
  unfold extractRouteEndpoints
  by_cases h : (features.getD []).isEmpty <;> simp [h]

theorem extractRouteEndpoints_single (f : Feature) :
    extractRouteEndpoints (some [f]) =
      ⟨f.name.getD "", f.name.getD "", f.name.getD "" != "", 1⟩ := by
  unfold extractRouteEndpoints
  simp [groupByDirection, insertGroup, jsKeysOrder_singleton, selectLoop,
    groupLen, findGroup, sortBySeq, List.insertionSort]

/-- C6: `isCircular` of a computed summary is true exactly when `from` and
`to` agree and are non-empty; a single stop with non-empty resolved name is
circular; the zero-feature summaries have `isCircular = false`. -/
theorem claim_C6 :
    (∀ features : Option (List Feature),
      (extractRouteEndpoints features).isCircular = true ↔
        ((extractRouteEndpoints features).fromName =
            (extractRouteEndpoints features).toName ∧
          (extractRouteEndpoints features).fromName ≠ "" ∧
          (extractRouteEndpoints features).toName ≠ "")) ∧
    (∀ f : Feature, f.name.getD "" ≠ "" →
      (extractRouteEndpoints (some [f])).isCircular = true) ∧
    extractRouteEndpoints (some []) = ⟨"", "", false, 0⟩ ∧
    extractRouteEndpoints none = ⟨"", "", false, 0⟩ := by
  refine ⟨?_, ?_, rfl, rfl⟩
  · intro features
    rw [extractRouteEndpoints_circular_eq]
    constructor
    · intro hc
      simp only [Bool.and_eq_true, bne_iff_ne, ne_eq, beq_iff_eq] at hc
      exact ⟨hc.2, hc.1, hc.2 ▸ hc.1⟩
    · rintro ⟨h1, h2, h3⟩
      simp only [Bool.and_eq_true, bne_iff_ne, ne_eq, beq_iff_eq]
      exact ⟨h2, h1⟩
  · intro f hf
    rw [extractRouteEndpoints_single]
    simpa using hf

/-- Witness for C6 at a concrete single-stop input. -/
theorem claim_C6_witness :
    (extractRouteEndpoints (some [{ name := some "Solo" }])).isCircular = true :=
  claim_C6.2.1 { name := some "Solo" } (by decide)

/-- C7 counterexample: a feature whose name is the single blank `" "` is
kept by ingestion, and the resulting stop's name is empty after trimming —
so not every ingested stop has a name that is non-empty after trimming. -/
theorem claim_C7_counterexample :
    (fetchAllStops (some [{ name := some " " }])).map Stop.name = [" "] ∧
    jsTrim " " = "" := by
  decide

/-- C7 amended: every ingested stop has a non-empty (but possibly
whitespace-only) name — an empty or absent upstream name resolves to
`"Unknown Stop"`, so the empty-name filter discards nothing. -/
theorem claim_C7_amended (features : Option (List Feature)) :
    (∀ s ∈ fetchAllStops features, s.name ≠ "") ∧
    (fetchAllStops features).length = (features.getD []).length := by
  have hname : ∀ f : Feature, (mapFeatureToStop f).name ≠ "" := by
    intro f
    show jsOrStr (f.name.getD "") "Unknown Stop" ≠ ""
    unfold jsOrStr
    split
    · decide
    · assumption
  constructor
  · intro s hs
    have := (List.mem_filter.mp hs).2
    simpa using this
  · unfold fetchAllStops
    rw [List.filter_eq_self.mpr, List.length_map]
    intro a ha
    rcases List.mem_map.mp ha with ⟨f, _, rfl⟩
    simpa using hname f

/-- Witness for C7 amended at a concrete input. -/
theorem claim_C7_amended_witness :
    ({ _id := "s1", id := "s1", name := "S1" } : Stop).name ≠ "" ∧
    (fetchAllStops (some [{ name := some "S1", pid := some "s1" }])).length = 1 :=
  ⟨(claim_C7_amended (some [{ name := some "S1", pid := some "s1" }])).1
      { _id := "s1", id := "s1", name := "S1" } (by decide),
    (claim_C7_amended (some [{ name := some "S1", pid := some "s1" }])).2⟩

/-- C3 counterexample: a persisted blob on which `JSON.parse` throws makes
`loadFresh` return absent but is NOT deleted from the backing store. -/
theorem claim_C3_counterexample :
    (loadFreshCache (α := List Stop) 0 ⟨none, some .unparseable⟩).1 = none ∧
    ((loadFreshCache (α := List Stop) 0 ⟨none, some .unparseable⟩).2).persisted =
      some .unparseable := by
  exact ⟨rfl, rfl⟩

/-- C3 amended: when the persisted blob is consulted (no fresh in-process
copy), a parseable blob failing the structural check and an expired
well-formed blob are deleted with absent returned; an unparseable blob
yields absent with the store left untouched; and `loadFresh` never returns
an expired envelope. -/
theorem claim_C3_amended {α : Type} (st : CacheState α) (now : Int) :
    (st.persisted = some .malformed →
      (loadPersisted now st).1 = none ∧ (loadPersisted now st).2.persisted = none) ∧
    (∀ u p, st.persisted = some (.wellFormed u p) → now - u > TTL_MS →
      (loadPersisted now st).1 = none ∧ (loadPersisted now st).2.persisted = none) ∧
    (st.persisted = some .unparseable → loadPersisted now st = (none, st)) ∧
    (st.inMemory = none → loadFreshCache now st = loadPersisted now st) ∧
    (∀ env, st.inMemory = some env → now - env.updatedAt > TTL_MS →
      loadFreshCache now st = loadPersisted now st) ∧
    (∀ env, (loadFreshCache now st).1 = some env → now - env.updatedAt ≤ TTL_MS) := by
  refine ⟨?_, ?_, ?_, ?_, ?_, ?_⟩
  · intro h
    simp [loadPersisted, h]
  · intro u p h hexp
    simp [loadPersisted, h, hexp]
  · intro h
    simp [loadPersisted, h]
  · intro h
    simp [loadFreshCache, h]
  · intro env h hstale
    simp [loadFreshCache, h]
    intro hfresh
    omega
  · intro env henv
    unfold loadFreshCache at henv
    have hpers : ∀ (st2 : CacheState α), (loadPersisted now st2).1 = some env →
        now - env.updatedAt ≤ TTL_MS := by
      intro st2 h2
      unfold loadPersisted at h2
      cases hp : st2.persisted with
      | none =>
        rw [hp] at h2
        simp at h2
      | some blob =>
        rw [hp] at h2
        cases blob with
        | unparseable => simp at h2
        | malformed => simp at h2
        | wellFormed u p =>
          dsimp only at h2
          by_cases hexp : now - u > TTL_MS
          · rw [if_pos hexp] at h2
            simp at h2
          · rw [if_neg hexp] at h2
            have h3 : ({ updatedAt := u, payload := p } : Envelope α) = env := by
              simpa using h2
            rw [← h3]
            dsimp only
            omega
    cases hm : st.inMemory with
    | none =>
      rw [hm] at henv
      exact hpers st henv
    | some e =>
      rw [hm] at henv
      dsimp only at henv
      by_cases hfresh : now - e.updatedAt ≤ TTL_MS
      · rw [if_pos hfresh] at henv
        have h3 : e = env := by simpa using henv
        rw [← h3]
        exact hfresh
      · rw [if_neg hfresh] at henv
        exact hpers st henv

/-! ## C1: analysis of the direction-selection loop -/

/-- Largest group size over a key list. -/
def maxOver (cnt : String → Nat) : List String → Nat
  | [] => 0
  | k :: rest => max (cnt k) (maxOver cnt rest)

theorem selectLoop_aux (cnt : String → Nat) :
    ∀ (keys : List String) (m : Nat) (sel : Option String),
      List.foldl (fun acc k => if acc.1 < cnt k then (cnt k, some k) else acc) (m, sel) keys =
        (max m (maxOver cnt keys),
          if m < maxOver cnt keys then
            keys.find? (fun k => cnt k == maxOver cnt keys)
          else sel) := by
  intro keys
  induction keys with
  | nil =>
    intro m sel
    simp [maxOver]
  | cons k rest ih =>
    intro m sel
    simp only [List.foldl_cons, maxOver]
    by_cases h : m < cnt k
    · rw [if_pos h, ih]
      by_cases h2 : cnt k < maxOver cnt rest
      · have hM : max (cnt k) (maxOver cnt rest) = maxOver cnt rest := by omega
        rw [hM]
        simp only [Prod.mk.injEq]
        refine ⟨by omega, ?_⟩
        rw [if_pos h2, if_pos (show m < maxOver cnt rest by omega),
          List.find?_cons_of_neg _ (by simp; omega)]
      · have hM : max (cnt k) (maxOver cnt rest) = cnt k := by omega
        rw [hM]
        simp only [Prod.mk.injEq]
        refine ⟨by omega, ?_⟩
        rw [if_neg h2, if_pos h, List.find?_cons_of_pos _ (by simp)]
    · rw [if_neg h, ih]
      by_cases h2 : m < maxOver cnt rest
      · have hM : max (cnt k) (maxOver cnt rest) = maxOver cnt rest := by omega
        rw [hM]
        simp only [Prod.mk.injEq]
        refine ⟨by trivial, ?_⟩
        rw [if_pos h2, if_pos h2, List.find?_cons_of_neg _ (by simp; omega)]
      · have hcond : ¬ m < max (cnt k) (maxOver cnt rest) := by omega
        simp only [Prod.mk.injEq]
        refine ⟨by omega, ?_⟩
        rw [if_neg h2, if_neg hcond]

theorem selectLoop_snd (cnt : String → Nat) (keys : List String) :
    (selectLoop cnt keys).2 = keys.find? (fun k => cnt k == maxOver cnt keys) := by
  unfold selectLoop
  rw [selectLoop_aux]
  by_cases h : 0 < maxOver cnt keys
  · rw [if_pos h]
  · rw [if_neg h]
    cases keys with
    | nil => rfl
    | cons k rest =>
      have h0 : maxOver cnt (k :: rest) = 0 := by omega
      have hk : cnt k = 0 := by
        simp [maxOver] at h0
        omega
      rw [List.find?_cons_of_pos _ (by simp [hk, h0])]
      rfl

/-- Follows the amended claim C1: partition the stops into direction groups
in first-encounter order, enumerate the group keys in `Object.keys` order
(canonical array-index labels numerically ascending, then the rest in
first-encounter order), select the FIRST key in that enumeration whose
group attains the maximum group size, and sort that group stably by
`stop_sequence`. -/
def extractRouteEndpointsJsEnum (features : Option (List Feature)) : RouteEndpointsData :=
  let stops := features.getD []
  if stops.isEmpty then ⟨"", "", false, 0⟩ else
    let groups := groupByDirection stops
    let keys := jsKeysOrder (groups.map Prod.fst)
    let sel := keys.find? (fun k => groupLen groups k == maxOver (groupLen groups) keys)
    let targetStops := match sel.bind (findGroup groups) with
      | some g => g
      | none => stops
    let sorted := sortBySeq targetStops
    let stopCount := sorted.length
    let firstStop := (sorted.head?.bind (fun f => f.name)).getD ""
    let lastStop := (sorted.getLast?.bind (fun f => f.name)).getD ""
    ⟨firstStop, lastStop, firstStop != "" && firstStop == lastStop, stopCount⟩

/-- Follows claim C1's words for the tie-break: the selection scan runs
over the groups in the order they were created during the partition scan
(first-encounter order), keeping the earlier group on ties. -/
def extractRouteEndpointsClaimScan (features : Option (List Feature)) : RouteEndpointsData :=
  let stops := features.getD []
  if stops.isEmpty then ⟨"", "", false, 0⟩ else
    let groups := groupByDirection stops
    let keys := groups.map Prod.fst
    let sel := (selectLoop (groupLen groups) keys).2
    let targetStops := match sel.bind (findGroup groups) with
      | some g => g
      | none => stops
    let sorted := sortBySeq targetStops
    let stopCount := sorted.length
    let firstStop := (sorted.head?.bind (fun f => f.name)).getD ""
    let lastStop := (sorted.getLast?.bind (fun f => f.name)).getD ""
    ⟨firstStop, lastStop, firstStop != "" && firstStop == lastStop, stopCount⟩

/-- The three stops of the worked example in C1. -/
def exB : Feature := { direction := some "0", stop_sequence := some 2, name := some "B" }

def exA : Feature := { direction := some "0", stop_sequence := some 1, name := some "A" }

def exX : Feature := { direction := some "1", stop_sequence := some 1, name := some "X" }

/-- C1 counterexample: with direction labels `"1"` (encountered first) and
`"0"` tied at one stop each, `Object.keys` enumerates the integer-like
label `"0"` first, so the code selects group `"0"` — not the group
encountered first during the partition scan, which claim C1 predicts
(computed here by `extractRouteEndpointsClaimScan`). -/
theorem claim_C1_counterexample :
    extractRouteEndpoints
        (some [{ direction := some "1", stop_sequence := some 1, name := some "X" },
          { direction := some "0", stop_sequence := some 1, name := some "Y" }]) =
      ⟨"Y", "Y", true, 1⟩ ∧
    extractRouteEndpointsClaimScan
        (some [{ direction := some "1", stop_sequence := some 1, name := some "X" },
          { direction := some "0", stop_sequence := some 1, name := some "Y" }]) =
      ⟨"X", "X", true, 1⟩ := by
  decide

/-- C1 amended: the endpoint computation partitions by direction label
(default "0"), selects the first group attaining the maximum size in
`Object.keys` enumeration order (integer-like labels ascending first, then
first-encounter order) — equivalently `extractRouteEndpointsJsEnum` — and
sorts the winner stably by `stop_sequence` (missing treated as 0); the
worked example still yields `from="A"`, `to="B"`, `stopCount=2` under every
input order. -/
theorem claim_C1_amended :
    (∀ features, extractRouteEndpoints features = extractRouteEndpointsJsEnum features) ∧
    (∀ fs : List Feature,
      (sortBySeq fs).Pairwise (fun a b => seqOf a ≤ seqOf b) ∧ (sortBySeq fs).Perm fs) ∧
    (∀ (a b : Feature) (fs : List Feature), seqOf a ≤ seqOf b →
      [a, b].Sublist fs → [a, b].Sublist (sortBySeq fs)) ∧
    (∀ p ∈ [[exB, exA, exX], [exB, exX, exA], [exA, exB, exX],
        [exA, exX, exB], [exX, exA, exB], [exX, exB, exA]],
      extractRouteEndpoints (some p) = ⟨"A", "B", false, 2⟩) := by
  refine ⟨?_, ?_, ?_, ?_⟩
  · intro features
    simp only [extractRouteEndpoints, extractRouteEndpointsJsEnum, selectLoop_snd]
  · intro fs
    haveI : IsTotal Feature (fun a b => seqOf a ≤ seqOf b) := ⟨fun a b => Int.le_total _ _⟩
    haveI : IsTrans Feature (fun a b => seqOf a ≤ seqOf b) :=
      ⟨fun _ _ _ h1 h2 => le_trans h1 h2⟩
    exact ⟨List.sorted_insertionSort _ fs, List.perm_insertionSort _ fs⟩
  · intro a b fs hab hsub
    exact List.pair_sublist_insertionSort hab hsub
  · decide

/-- Witness for C1 amended: the stability clause and the worked example at
concrete inputs. -/
theorem claim_C1_amended_witness :
    [exA, exB].Sublist (sortBySeq [exA, exB]) ∧
    extractRouteEndpoints (some [exB, exA, exX]) = ⟨"A", "B", false, 2⟩ :=
  ⟨claim_C1_amended.2.2.1 exA exB [exA, exB] (by decide) (List.Sublist.refl _),
    claim_C1_amended.2.2.2 [exB, exA, exX] (by decide)⟩

/-- Witness for C3 amended at concrete states. -/
theorem claim_C3_amended_witness :
    ((loadPersisted (α := List Stop) 0 ⟨none, some .malformed⟩).1 = none ∧
      (loadPersisted (α := List Stop) 0 ⟨none, some .malformed⟩).2.persisted = none) ∧
    ((loadPersisted (α := List Stop) (TTL_MS + 1) ⟨none, some (.wellFormed 0 [])⟩).1 = none ∧
      (loadPersisted (α := List Stop) (TTL_MS + 1)
          ⟨none, some (.wellFormed 0 [])⟩).2.persisted = none) :=
  ⟨(claim_C3_amended ⟨none, some .malformed⟩ 0).1 rfl,
    (claim_C3_amended ⟨none, some (.wellFormed 0 [])⟩ (TTL_MS + 1)).2.1 0 [] rfl
      (by decide)⟩

/-! ## C2: fallback synthesis -/

theorem enum_map_comp_snd {γ δ : Type} (l : List γ) (F : γ → δ) :
    l.enum.map (fun p => F p.2) = l.map F := by
  have h1 : (fun p : Nat × γ => F p.2) = F ∘ Prod.snd := rfl
  rw [h1, ← List.map_map, show l.enum = l.enumFrom 0 from rfl, List.enumFrom_map_snd]

theorem enum_map_comp_fst {γ δ : Type} (l : List γ) (F : Nat → δ) :
    l.enum.map (fun p => F p.1) = (List.range l.length).map F := by
  have h1 : (fun p : Nat × γ => F p.1) = F ∘ Prod.fst := rfl
  rw [h1, ← List.map_map, show l.enum = l.enumFrom 0 from rfl, List.enumFrom_map_fst,
    List.range_eq_range']

theorem mem_of_mem_enum {γ : Type} {p : Nat × γ} {l : List γ} (h : p ∈ l.enum) :
    p.2 ∈ l := by
  have h2 := List.mem_map_of_mem Prod.snd h
  rwa [show l.enum = l.enumFrom 0 from rfl, List.enumFrom_map_snd] at h2

/-- The two stops of the worked example in C2. -/
def zetaS : Stop := { _id := "z", id := "z", name := "Zeta", route_list := ["999-Z"] }

def alphaS : Stop := { _id := "a", id := "a", name := "Alpha", route_list := ["999-Z"] }

/-- C2: the fallback synthesizer filters the stop index by exact membership
of the trimmed route id in `route_list`, sorts by name, numbers the output
1-based, carries each stop's name and geometry, and the wrapped collection
is tagged `meta.fallback = true`; worked example included. -/
theorem claim_C2 :
    (∀ (allStops : List Stop) (routeId : String) (s : Stop),
      s ∈ allStops.filter (fun t => t.route_list.contains (jsTrim routeId)) ↔
        s ∈ allStops ∧ jsTrim routeId ∈ s.route_list) ∧
    (∀ (allStops : List Stop) (routeId : String),
      (buildFallbackRouteStops allStops routeId).map (fun f => f.name) =
        (sortByName (allStops.filter (fun t => t.route_list.contains (jsTrim routeId)))).map
          (fun s => some s.name)) ∧
    (∀ l : List Stop,
      (sortByName l).Perm l ∧
        (sortByName l).Pairwise (fun a b => jsLocaleCompare a.name b.name ≤ 0)) ∧
    (∀ (allStops : List Stop) (routeId : String),
      (buildFallbackRouteStops allStops routeId).map (fun f => f.stop_sequence) =
        (List.range (buildFallbackRouteStops allStops routeId).length).map
          (fun i : Nat => some ((i : Int) + 1))) ∧
    (∀ (allStops : List Stop) (routeId : String) (f : Feature),
      f ∈ buildFallbackRouteStops allStops routeId →
        ∃ s, s ∈ allStops ∧ jsTrim routeId ∈ s.route_list ∧ f.name = some s.name ∧
          f.geometry = (s.geometry <|> s.location)) ∧
    (∀ (allStops : List Stop) (routeId : String) (f : Feature),
      (∀ s ∈ allStops, s.geometry = s.location) →
      f ∈ buildFallbackRouteStops allStops routeId →
        ∃ s, s ∈ allStops ∧ jsTrim routeId ∈ s.route_list ∧ f.name = some s.name ∧
          f.geometry = s.geometry) ∧
    ((buildFallbackRouteStops [zetaS, alphaS] "999-Z").map (fun f => f.name) =
        [some "Alpha", some "Zeta"] ∧
      (buildFallbackRouteStops [zetaS, alphaS] "999-Z").map (fun f => f.stop_sequence) =
        [some 1, some 2] ∧
      (getRouteDetailsAPI (.ok { features := some [] }) [zetaS, alphaS] "999-Z").toOption.bind
          (fun rd => rd.meta.map (fun m => m.fallback)) = some true) := by
  have hmem : ∀ (allStops : List Stop) (routeId : String) (f : Feature),
      f ∈ buildFallbackRouteStops allStops routeId →
        ∃ s, s ∈ allStops ∧ jsTrim routeId ∈ s.route_list ∧ f.name = some s.name ∧
          f.geometry = (s.geometry <|> s.location) := by
    intro allStops routeId f hf
    unfold buildFallbackRouteStops at hf
    by_cases h : (allStops.filter (fun t => t.route_list.contains (jsTrim routeId))).isEmpty
    · rw [if_pos h] at hf
      simp at hf
    · rw [if_neg h] at hf
      rcases List.mem_map.mp hf with ⟨p, hp, rfl⟩
      have hsort := mem_of_mem_enum hp
      have hmatch : p.2 ∈ allStops.filter (fun t => t.route_list.contains (jsTrim routeId)) :=
        (List.perm_insertionSort _ _).mem_iff.mp hsort
      have hfil := List.mem_filter.mp hmatch
      refine ⟨p.2, hfil.1, ?_, rfl, rfl⟩
      simpa using hfil.2
  refine ⟨?_, ?_, ?_, ?_, hmem, ?_, by decide⟩
  · intro allStops routeId s
    simp [List.mem_filter]
  · intro allStops routeId
    unfold buildFallbackRouteStops
    by_cases h : (allStops.filter (fun t => t.route_list.contains (jsTrim routeId))).isEmpty
    · rw [if_pos h, List.isEmpty_iff.mp h]
      rfl
    · rw [if_neg h, List.map_map]
      exact enum_map_comp_snd
        (sortByName (allStops.filter (fun t => t.route_list.contains (jsTrim routeId))))
        (fun s => some s.name)
  · intro l
    haveI : IsTotal Stop (fun a b => jsLocaleCompare a.name b.name ≤ 0) :=
      ⟨fun a b => localeLe_total _ _⟩
    haveI : IsTrans Stop (fun a b => jsLocaleCompare a.name b.name ≤ 0) :=
      ⟨fun _ _ _ h1 h2 => localeLe_trans h1 h2⟩
    exact ⟨List.perm_insertionSort _ l, List.sorted_insertionSort _ l⟩
  · intro allStops routeId
    unfold buildFallbackRouteStops
    by_cases h : (allStops.filter (fun t => t.route_list.contains (jsTrim routeId))).isEmpty
    · rw [if_pos h]
      rfl
    · rw [if_neg h, List.map_map, List.length_map, List.enum_length]
      exact enum_map_comp_fst
        (sortByName (allStops.filter (fun t => t.route_list.contains (jsTrim routeId))))
        (fun i : Nat => some ((i : Int) + 1))
  · intro allStops routeId f hgl hf
    rcases hmem allStops routeId f hf with ⟨s, hs1, hs2, hs3, hs4⟩
    refine ⟨s, hs1, hs2, hs3, ?_⟩
    rw [hs4, hgl s hs1]
    cases s.location <;> simp

/-- Witness for C2 at the worked example: the first synthesized feature
carries Alpha's name and geometry. -/
theorem claim_C2_witness :
    (∃ s, s ∈ [zetaS, alphaS] ∧ jsTrim "999-Z" ∈ s.route_list ∧
      ({ name := some "Alpha", stop_sequence := some 1 } : Feature).name = some s.name ∧
      ({ name := some "Alpha", stop_sequence := some 1 } : Feature).geometry =
        (s.geometry <|> s.location)) ∧
    (∃ s, s ∈ [zetaS, alphaS] ∧ jsTrim "999-Z" ∈ s.route_list ∧
      ({ name := some "Alpha", stop_sequence := some 1 } : Feature).name = some s.name ∧
      ({ name := some "Alpha", stop_sequence := some 1 } : Feature).geometry = s.geometry) :=
  ⟨claim_C2.2.2.2.2.1 [zetaS, alphaS] "999-Z"
      { name := some "Alpha", stop_sequence := some 1 } (by decide),
    claim_C2.2.2.2.2.2.1 [zetaS, alphaS] "999-Z"
      { name := some "Alpha", stop_sequence := some 1 } (by decide) (by decide)⟩

/-! ## C4: route detail with fallback -/

/-- C4: the remote payload is returned verbatim when it has at least one
feature; an empty or failed remote reply returns the fallback wrap tagged
`meta.fallback = true` when the synthesis is non-empty; and the call fails
exactly when the remote yields no usable features (or errors) and the
synthesis is empty. -/
theorem claim_C4 :
    (∀ (data : RouteData) (allStops : List Stop) (routeId : String),
      (data.features.getD []).length > 0 →
        getRouteDetailsAPI (.ok data) allStops routeId = .ok data) ∧
    (∀ (data : RouteData) (allStops : List Stop) (routeId : String),
      (data.features.getD []).length = 0 →
      buildFallbackRouteStops allStops (jsTrim routeId) ≠ [] →
        getRouteDetailsAPI (.ok data) allStops routeId =
          .ok { features := some (buildFallbackRouteStops allStops (jsTrim routeId))
                meta := some ⟨jsTrim routeId, true,
                  (buildFallbackRouteStops allStops (jsTrim routeId)).length⟩ }) ∧
    (∀ (status : Option Nat) (allStops : List Stop) (routeId : String),
      buildFallbackRouteStops allStops (jsTrim routeId) ≠ [] →
        getRouteDetailsAPI (.fail status) allStops routeId =
          .ok { features := some (buildFallbackRouteStops allStops (jsTrim routeId))
                meta := some ⟨jsTrim routeId, true,
                  (buildFallbackRouteStops allStops (jsTrim routeId)).length⟩ }) ∧
    (∀ (remote : RemoteReply RouteData) (allStops : List Stop) (routeId : String),
      (∃ e, getRouteDetailsAPI remote allStops routeId = .error e) ↔
        (buildFallbackRouteStops allStops (jsTrim routeId) = [] ∧
          match remote with
          | .ok data => (data.features.getD []).length = 0
          | .fail _ => True)) := by
  refine ⟨?_, ?_, ?_, ?_⟩
  · intro data allStops routeId h
    unfold getRouteDetailsAPI
    dsimp only
    rw [if_pos h]
  · intro data allStops routeId h hfb
    unfold getRouteDetailsAPI
    dsimp only
    rw [if_neg (by omega),
      if_pos (by have := List.length_pos.mpr hfb; omega)]
  · intro status allStops routeId hfb
    unfold getRouteDetailsAPI
    dsimp only
    rw [if_pos (by have := List.length_pos.mpr hfb; omega)]
  · intro remote allStops routeId
    cases remote with
    | ok data =>
      unfold getRouteDetailsAPI
      dsimp only
      by_cases h : (data.features.getD []).length > 0
      · rw [if_pos h]
        simp only [reduceCtorEq, exists_false, false_iff, not_and]
        intro _
        omega
      · rw [if_neg h]
        by_cases hfb : (buildFallbackRouteStops allStops (jsTrim routeId)).length > 0
        · rw [if_pos hfb]
          have : buildFallbackRouteStops allStops (jsTrim routeId) ≠ [] := by
            intro hnil
            rw [hnil] at hfb
            simp at hfb
          simp_all
        · rw [if_neg hfb]
          have : buildFallbackRouteStops allStops (jsTrim routeId) = [] :=
            List.length_eq_zero.mp (by omega)
          simp_all
    | fail status =>
      unfold getRouteDetailsAPI
      dsimp only
      by_cases hfb : (buildFallbackRouteStops allStops (jsTrim routeId)).length > 0
      · rw [if_pos hfb]
        have : buildFallbackRouteStops allStops (jsTrim routeId) ≠ [] := by
          intro hnil
          rw [hnil] at hfb
          simp at hfb
        simp_all
      · rw [if_neg hfb]
        have : buildFallbackRouteStops allStops (jsTrim routeId) = [] :=
          List.length_eq_zero.mp (by omega)
        simp_all

/-- Witness for C4: verbatim pass-through and the not-found failure at
concrete inputs. -/
theorem claim_C4_witness :
    getRouteDetailsAPI (.ok { features := some [{ name := some "A" }] }) [] "r" =
      .ok { features := some [{ name := some "A" }] } ∧
    (∃ e, getRouteDetailsAPI (.ok { features := some [] }) [] "r" = .error e) :=
  ⟨claim_C4.1 { features := some [{ name := some "A" }] } [] "r" (by decide),
    (claim_C4.2.2.2 (.ok { features := some [] }) [] "r").mpr ⟨by decide, by decide⟩⟩

/-! ## C5: stop search ranking -/

/-- The ranking relation of claim C5: first-occurrence index of the query
in the lowercased name, then name length, then locale order. -/
def stopRankLe (nq : String) (a b : Stop) : Prop :=
  jsIndexOf (jsToLower a.name) nq < jsIndexOf (jsToLower b.name) nq ∨
    (jsIndexOf (jsToLower a.name) nq = jsIndexOf (jsToLower b.name) nq ∧
      ((jsToLower a.name).length < (jsToLower b.name).length ∨
        ((jsToLower a.name).length = (jsToLower b.name).length ∧
          jsLocaleCompare (jsToLower a.name) (jsToLower b.name) ≤ 0)))

theorem stopCmp_nonpos_iff (nq : String) (a b : Stop) :
    stopCmp nq a b ≤ 0 ↔ stopRankLe nq a b := by
  unfold stopCmp stopRankLe
  dsimp only
  by_cases h1 : jsIndexOf (jsToLower a.name) nq ≠ jsIndexOf (jsToLower b.name) nq
  · rw [if_pos h1]
    constructor
    · intro h
      left
      omega
    · intro h
      rcases h with h | ⟨h, _⟩ <;> omega
  · rw [if_neg h1]
    by_cases h2 : (jsToLower a.name).length ≠ (jsToLower b.name).length
    · rw [if_pos h2]
      constructor
      · intro h
        right
        refine ⟨by omega, Or.inl (by omega)⟩
      · intro h
        rcases h with h | ⟨_, h | ⟨h, _⟩⟩ <;> omega
    · rw [if_neg h2]
      constructor
      · intro h
        right
        exact ⟨by omega, Or.inr ⟨by omega, h⟩⟩
      · intro h
        rcases h with h | ⟨_, h | ⟨_, h⟩⟩
        · omega
        · omega
        · exact h

theorem stopRankLe_trans {nq : String} {a b c : Stop}
    (h1 : stopRankLe nq a b) (h2 : stopRankLe nq b c) : stopRankLe nq a c := by
  unfold stopRankLe at h1 h2 ⊢
  rcases h1 with h1 | ⟨e1, h1⟩
  · rcases h2 with h2 | ⟨e2, _⟩
    · left
      omega
    · left
      omega
  · rcases h2 with h2 | ⟨e2, h2⟩
    · left
      omega
    · right
      refine ⟨by omega, ?_⟩
      rcases h1 with l1 | ⟨le1, loc1⟩
      · rcases h2 with l2 | ⟨le2, _⟩
        · exact Or.inl (by omega)
        · exact Or.inl (by omega)
      · rcases h2 with l2 | ⟨le2, loc2⟩
        · exact Or.inl (by omega)
        · exact Or.inr ⟨by omega, localeLe_trans loc1 loc2⟩

theorem stopRankLe_total (nq : String) (a b : Stop) :
    stopRankLe nq a b ∨ stopRankLe nq b a := by
  unfold stopRankLe
  rcases lt_trichotomy (jsIndexOf (jsToLower a.name) nq) (jsIndexOf (jsToLower b.name) nq)
    with h | h | h
  · exact Or.inl (Or.inl h)
  · rcases lt_trichotomy (jsToLower a.name).length (jsToLower b.name).length
      with h2 | h2 | h2
    · exact Or.inl (Or.inr ⟨h, Or.inl h2⟩)
    · rcases localeLe_total (jsToLower a.name) (jsToLower b.name) with h3 | h3
      · exact Or.inl (Or.inr ⟨h, Or.inr ⟨h2, h3⟩⟩)
      · exact Or.inr (Or.inr ⟨h.symm, Or.inr ⟨h2.symm, h3⟩⟩)
    · exact Or.inr (Or.inr ⟨h.symm, Or.inl h2⟩)
  · exact Or.inr (Or.inl h)

/-- The three stops of the worked example in C5. -/
def indiraS : Stop := { _id := "1", id := "1", name := "Indiranagar" }

def indiaS : Stop := { _id := "2", id := "2", name := "India Gate" }

def nagarS : Stop := { _id := "3", id := "3", name := "Nagar" }

/-- C5: stop search filters by lowercased substring containment of the
normalized query, ranks by (match index, name length, locale order), and
returns the top `limit` with the pre-truncation total: the returned list
together with some remainder is a permutation of all matches, and every
returned stop ranks at or before every stop of that remainder, so the
returned stops are the best-ranked `limit` matches.  Worked examples with
`limit` above and below the match count included. -/
theorem claim_C5 :
    (∀ (allStops : List Stop) (q : String) (k : Nat),
      (∀ s ∈ (searchStopsAPI (.ok allStops) q k).stops,
        s ∈ allStops ∧ jsIncludes (jsToLower s.name) (normalizeQuery q) = true) ∧
      (searchStopsAPI (.ok allStops) q k).stops.Pairwise (stopRankLe (normalizeQuery q)) ∧
      (searchStopsAPI (.ok allStops) q k).total =
        (allStops.filter (fun s => jsIncludes (jsToLower s.name) (normalizeQuery q))).length ∧
      (searchStopsAPI (.ok allStops) q k).stops.length =
        min k (searchStopsAPI (.ok allStops) q k).total ∧
      (∃ rest : List Stop,
        ((searchStopsAPI (.ok allStops) q k).stops ++ rest).Perm
          (allStops.filter (fun s => jsIncludes (jsToLower s.name) (normalizeQuery q))) ∧
        ∀ a ∈ (searchStopsAPI (.ok allStops) q k).stops, ∀ b ∈ rest,
          stopRankLe (normalizeQuery q) a b)) ∧
    ((searchStopsAPI (.ok [indiraS, indiaS, nagarS]) "nagar" 10).stops.map Stop.name =
        ["Nagar", "Indiranagar"] ∧
      (searchStopsAPI (.ok [indiraS, indiaS, nagarS]) "nagar" 10).total = 2 ∧
      (searchStopsAPI (.ok [indiraS, indiaS, nagarS]) "nagar" 1).stops.map Stop.name =
        ["Nagar"] ∧
      (searchStopsAPI (.ok [indiraS, indiaS, nagarS]) "nagar" 1).total = 2) := by
  constructor
  · intro allStops q k
    haveI : IsTotal Stop (fun a b => stopCmp (normalizeQuery q) a b ≤ 0) :=
      ⟨fun a b => by
        rw [stopCmp_nonpos_iff, stopCmp_nonpos_iff]
        exact stopRankLe_total _ a b⟩
    haveI : IsTrans Stop (fun a b => stopCmp (normalizeQuery q) a b ≤ 0) :=
      ⟨fun a b c h1 h2 => by
        rw [stopCmp_nonpos_iff] at h1 h2 ⊢
        exact stopRankLe_trans h1 h2⟩
    have hsorted := List.sorted_insertionSort
      (fun a b => stopCmp (normalizeQuery q) a b ≤ 0)
      (allStops.filter (fun t => jsIncludes (jsToLower t.name) (normalizeQuery q)))
    unfold searchStopsAPI
    dsimp only
    refine ⟨?_, ?_, rfl, ?_, ?_⟩
    · intro s hs
      have hs2 : s ∈ (allStops.filter
          (fun t => jsIncludes (jsToLower t.name) (normalizeQuery q))).insertionSort
            (fun a b => stopCmp (normalizeQuery q) a b ≤ 0) :=
        List.mem_of_mem_take hs
      have hs3 := (List.perm_insertionSort _ _).mem_iff.mp hs2
      have hs4 := List.mem_filter.mp hs3
      exact ⟨hs4.1, hs4.2⟩
    · have htake := hsorted.take (n := k)
      exact htake.imp (fun h => (stopCmp_nonpos_iff _ _ _).mp h)
    · rw [List.length_take, List.length_insertionSort]
    · refine ⟨((allStops.filter
          (fun t => jsIncludes (jsToLower t.name) (normalizeQuery q))).insertionSort
            (fun a b => stopCmp (normalizeQuery q) a b ≤ 0)).drop k, ?_, ?_⟩
      · rw [List.take_append_drop]
        exact List.perm_insertionSort _ _
      · intro a ha b hb
        have hsp : (((allStops.filter
            (fun t => jsIncludes (jsToLower t.name) (normalizeQuery q))).insertionSort
              (fun a b => stopCmp (normalizeQuery q) a b ≤ 0)).take k ++
            ((allStops.filter
              (fun t => jsIncludes (jsToLower t.name) (normalizeQuery q))).insertionSort
                (fun a b => stopCmp (normalizeQuery q) a b ≤ 0)).drop k).Pairwise
              (fun a b => stopCmp (normalizeQuery q) a b ≤ 0) := by
          rw [List.take_append_drop]
          exact hsorted
        rcases List.pairwise_append.mp hsp with ⟨_, _, hcross⟩
        exact (stopCmp_nonpos_iff _ _ _).mp (hcross a ha b hb)
  · exact ⟨by decide, by decide, by decide, by decide⟩

/-- Witness for C5: membership and match of a concrete returned stop. -/
theorem claim_C5_witness :
    nagarS ∈ [indiraS, indiaS, nagarS] ∧
    jsIncludes (jsToLower nagarS.name) (normalizeQuery "nagar") = true :=
  (claim_C5.1 [indiraS, indiaS, nagarS] "nagar" 10).1 nagarS (by decide)

/-! ## C8: search failure isolation -/

/-- C8 counterexample: a non-404 failure of the route half makes
`searchRoutesAPI` rethrow, and `searchAll` then returns the fully-empty
result, dropping the stop results that stop search alone would return. -/
theorem claim_C8_counterexample :
    searchAll (.fail (some 500)) (.ok [nagarS]) "nagar" 5 = ⟨[], [], 0, 0⟩ ∧
    (searchStopsAPI (.ok [nagarS]) "nagar" 5).stops = [nagarS] ∧
    searchRoutesAPI (.fail (some 500)) "nagar" 5 = .error (some 500) :=
  ⟨by decide, by decide, rfl⟩

/-- C8 amended: stop search never throws (an index failure degrades to the
empty result); route search swallows only 404 and propagates any other
remote failure; `searchAll` itself never throws, and a stop-side failure
leaves route results intact, but a propagated route-search failure empties
the whole response, stop results included. -/
theorem claim_C8_amended :
    (∀ (q : String) (k : Nat) (e : String), searchStopsAPI (.error e) q k = ⟨[], 0⟩) ∧
    (∀ (q : String) (k : Nat), searchRoutesAPI (.fail (some 404)) q k = .ok ⟨[], 0⟩) ∧
    (∀ (status : Option Nat) (q : String) (k : Nat), status ≠ some 404 →
      searchRoutesAPI (.fail status) q k = .error status) ∧
    (∀ (rr : RemoteReply RouteData) (ss : Except String (List Stop)) (q : String)
        (k : Nat) (e : Option Nat),
      searchRoutesAPI rr q k = .error e → searchAll rr ss q k = ⟨[], [], 0, 0⟩) ∧
    (∀ (rr : RemoteReply RouteData) (ss : Except String (List Stop)) (q : String)
        (k : Nat) (res : RoutesResult),
      searchRoutesAPI rr q k = .ok res →
        searchAll rr ss q k = ⟨(searchStopsAPI ss q k).stops, res.routes,
          (searchStopsAPI ss q k).total, res.total⟩) := by
  refine ⟨?_, ?_, ?_, ?_, ?_⟩
  · intro q k e
    rfl
  · intro q k
    rfl
  · intro status q k h
    unfold searchRoutesAPI
    dsimp only
    rw [if_neg h]
  · intro rr ss q k e h
    unfold searchAll
    rw [h]
  · intro rr ss q k res h
    unfold searchAll
    rw [h]

/-- Witness for C8 amended at a concrete failing route search. -/
theorem claim_C8_amended_witness :
    searchRoutesAPI (.fail (some 500)) "q" 5 = .error (some 500) ∧
    searchAll (.fail (some 500)) (.ok [nagarS]) "q" 5 = ⟨[], [], 0, 0⟩ :=
  ⟨claim_C8_amended.2.2.1 (some 500) "q" 5 (by decide),
    claim_C8_amended.2.2.2.1 (.fail (some 500)) (.ok [nagarS]) "q" 5 (some 500)
      (claim_C8_amended.2.2.1 (some 500) "q" 5 (by decide))⟩

/-! ## C9: batch cancellation -/

/-- The summary map obtained by merging a list of batches in order. -/
def mergeBatchList (resolve : String → RouteSummary) (bs : List (List String)) :
    List (String × RouteSummary) :=
  bs.foldl (fun acc b => mergeResults acc (b.map resolve)) []

/-- A thirteen-route list: three batches of size 6, 6 and 1. -/
def r13 : List String :=
  ["r1", "r2", "r3", "r4", "r5", "r6", "r7", "r8", "r9", "r10", "r11", "r12", "r13"]

/-- A concrete per-route resolver for the C9 scenarios. -/
def resolveEx (r : String) : RouteSummary :=
  ⟨r, "F" ++ r, "T" ++ r, false, 2, false⟩

/-- C9 counterexample: with the cancellation flag first observed true at
the check after batch 2 completes (the earliest point the loop can see a
request made after batch 1 was merged), the final map holds exactly batch
1's routes — but batch 2's remote calls were already issued (`calls =
[0, 1]`), contradicting "no further remote calls are made". -/
theorem claim_C9_counterexample :
    (loadRoutes resolveEx (fun j => decide (1 ≤ j)) r13).summaries.map Prod.fst =
      ["r1", "r2", "r3", "r4", "r5", "r6"] ∧
    (loadRoutes resolveEx (fun j => decide (1 ≤ j)) r13).calls = [0, 1] := by
  decide

theorem runBatches_run (resolve : String → RouteSummary) (cancelled : Nat → Bool) :
    ∀ (batches : List (List String)) (s : Nat) (st : BatchRun) (jj : Nat),
      s ≤ jj →
      (∀ i, s ≤ i → i < jj → cancelled i = false) →
      (jj < s + batches.length → cancelled jj = true) →
      runBatches resolve cancelled batches s st =
        { summaries := (batches.take (jj - s)).foldl
            (fun acc b => mergeResults acc (b.map resolve)) st.summaries
          calls := st.calls ++ List.range' s (min (jj - s + 1) batches.length) } := by
  intro batches
  induction batches with
  | nil =>
    intro s st jj hle h1 h2
    simp [runBatches]
  | cons b rest ih =>
    intro s st jj hle h1 h2
    unfold runBatches
    dsimp only
    by_cases hc : cancelled s = true
    · have hjj : jj = s := by
        by_contra hne
        have hlt : s < jj := by omega
        have := h1 s (le_refl s) hlt
        rw [hc] at this
        simp at this
      subst hjj
      rw [if_pos hc]
      have hmin : min (jj - jj + 1) (rest.length + 1) = 1 := by omega
      simp [hmin, List.range'_succ]
    · have hslt : s < jj := by
        by_contra hge
        have hjs : jj = s := by omega
        have := h2 (by simp only [List.length_cons]; omega)
        rw [hjs] at this
        exact hc this
      rw [if_neg hc]
      rw [ih (s + 1)
        { summaries := mergeResults st.summaries (b.map resolve), calls := st.calls ++ [s] }
        jj (by omega) (fun i hi1 hi2 => h1 i (by omega) hi2) (by intro h; exact h2 (by simp; omega))]
      have htake : (b :: rest).take (jj - s) = b :: rest.take (jj - (s + 1)) := by
        have heq : jj - s = (jj - (s + 1)) + 1 := by omega
        rw [heq, List.take_succ_cons]
      have hmin : min (jj - s + 1) (rest.length + 1) = min (jj - (s + 1) + 1) rest.length + 1 := by
        omega
      have hrange : List.range' s (min (jj - s + 1) (rest.length + 1)) =
          s :: List.range' (s + 1) (min (jj - (s + 1) + 1) rest.length) := by
        rw [hmin, List.range'_succ]
      simp only [htake, hrange, List.foldl_cons, List.length_cons]
      simp [List.append_assoc]

/-- C9 amended: the cancellation flag is read once per batch, after that
batch's `Promise.all` completes and before its merge.  If the flag is
first observed set at the check following batch `jj`, batches `0..jj` have
all issued remote calls, exactly batches `0..jj-1` are merged (batch
`jj`'s completed results are discarded), and no later batch is scheduled or
mutates state; with no cancellation in range, everything is called and
merged. -/
theorem claim_C9_amended :
    (∀ (resolve : String → RouteSummary) (cancelled : Nat → Bool) (route_list : List String),
      loadRoutes resolve cancelled route_list =
        runBatches resolve cancelled (chunkList 6 (uniqueRoutesOf route_list)) 0 {}) ∧
    (∀ (resolve : String → RouteSummary) (cancelled : Nat → Bool)
        (batches : List (List String)) (jj : Nat),
      (∀ i, i < jj → cancelled i = false) →
      (jj < batches.length → cancelled jj = true) →
      runBatches resolve cancelled batches 0 {} =
        { summaries := mergeBatchList resolve (batches.take jj)
          calls := List.range (min (jj + 1) batches.length) }) := by
  constructor
  · intro resolve cancelled route_list
    rfl
  · intro resolve cancelled batches jj h1 h2
    rw [runBatches_run resolve cancelled batches 0 {} jj (Nat.zero_le _)
      (fun i _ hi => h1 i hi) (by simpa using h2)]
    unfold mergeBatchList
    have hsub : jj - 0 = jj := rfl
    simp [hsub, List.range_eq_range']

/-- Witness for C9 amended: flag first observed at the check after batch 2
on the thirteen-route input. -/
theorem claim_C9_amended_witness :
    runBatches resolveEx (fun j => decide (1 ≤ j)) (chunkList 6 r13) 0 {} =
      { summaries := mergeBatchList resolveEx ((chunkList 6 r13).take 1)
        calls := List.range (min 2 (chunkList 6 r13).length) } :=
  claim_C9_amended.2 resolveEx (fun j => decide (1 ≤ j)) (chunkList 6 r13) 1
    (by decide) (by decide)

/-! ## C10: envelope-level freshness of the route-endpoint cache -/

theorem lookup_map_update {β : Type} (k : String) (v : β) :
    ∀ m : List (String × β), (m.find? (fun p => p.1 == k)).isSome = true →
      lookupKey (m.map (fun p => if p.1 == k then (p.1, v) else p)) k = some v := by
  intro m
  induction m with
  | nil =>
    intro h
    simp at h
  | cons p rest ih =>
    intro h
    by_cases hp : (p.1 == k) = true
    · simp only [List.map_cons, if_pos hp]
      unfold lookupKey
      rw [List.find?_cons_of_pos _ (by simpa using hp)]
      rfl
    · simp only [List.map_cons, if_neg hp]
      unfold lookupKey
      rw [List.find?_cons_of_neg _ (by simpa using hp)]
      have h2 : (rest.find? (fun p => p.1 == k)).isSome = true := by
        rw [List.find?_cons_of_neg _ (by simpa using hp)] at h
        exact h
      exact ih h2

theorem lookup_upsert_self {β : Type} (m : List (String × β)) (k : String) (v : β) :
    lookupKey (upsertKey m k v) k = some v := by
  unfold upsertKey
  by_cases h : (m.find? (fun p => p.1 == k)).isSome
  · rw [if_pos h]
    exact lookup_map_update k v m h
  · rw [if_neg h]
    unfold lookupKey
    rw [List.find?_append]
    have hnone : m.find? (fun p => p.1 == k) = none := by
      rcases hf : m.find? (fun p => p.1 == k) with _ | q
      · exact hf
      · rw [hf] at h
        simp at h
    rw [hnone, List.find?_cons_of_pos _ (by simp)]
    rfl

theorem lookup_upsert_other {β : Type} (m : List (String × β)) (k k2 : String) (v : β)
    (hne : k2 ≠ k) : lookupKey (upsertKey m k v) k2 = lookupKey m k2 := by
  unfold upsertKey
  by_cases h : (m.find? (fun p => p.1 == k)).isSome
  · rw [if_pos h]
    clear h
    induction m with
    | nil => rfl
    | cons p rest ih =>
      simp only [List.map_cons]
      by_cases hp : (p.1 == k) = true
      · rw [if_pos hp]
        have hk : p.1 = k := by simpa using hp
        have hneq : ¬((p.1 == k2) = true) := by
          simp only [hk, beq_iff_eq]
          exact fun hh => hne hh.symm
        unfold lookupKey
        rw [List.find?_cons_of_neg _ (by simpa using hneq),
          List.find?_cons_of_neg _ (by simpa using hneq)]
        exact ih
      · rw [if_neg hp]
        unfold lookupKey
        by_cases hq : (p.1 == k2) = true
        · rw [List.find?_cons_of_pos _ (by simpa using hq),
            List.find?_cons_of_pos _ (by simpa using hq)]
        · rw [List.find?_cons_of_neg _ (by simpa using hq),
            List.find?_cons_of_neg _ (by simpa using hq)]
          exact ih
  · rw [if_neg h]
    unfold lookupKey
    rw [List.find?_append]
    have hkv : List.find? (fun p => p.1 == k2) [(k, v)] = none := by
      rw [List.find?_cons_of_neg _ (by simp; exact fun hh => hne hh.symm)]
      rfl
    rw [hkv]
    rcases hf : m.find? (fun p => p.1 == k2) with _ | q <;> rw [hf] <;> rfl

/-- The two remote replies of the C10 trace. -/
def c10RemoteA : RemoteReply RouteData :=
  .ok { features := some [{ name := some "A1", stop_sequence := some 1 },
    { name := some "A2", stop_sequence := some 2 }] }

def c10RemoteB : RemoteReply RouteData :=
  .ok { features := some [{ name := some "B1", stop_sequence := some 1 }] }

def HOUR_MS : Int := 3600000

/-- Cache state after resolving route "A" at time 0 from an empty cache. -/
def c10St1 : CacheState RouteMap := (getRouteEndpoints c10RemoteA [] 0 {} "A").2

/-- Cache state after additionally resolving route "B" twenty hours later. -/
def c10St2 : CacheState RouteMap :=
  (getRouteEndpoints c10RemoteB [] (20 * HOUR_MS) c10St1 "B").2

/-- C10: route-endpoint cache freshness is tracked only on the envelope.
A cache hit serves any entry of a fresh envelope with no per-entry age
check; a cache-miss resolve saves the merged map with `updatedAt = now`,
preserving every other entry; consequently, in the concrete trace, route
"A"'s summary computed at time 0 is still served 40 hours later — beyond
the 24h TTL — because resolving "B" at hour 20 refreshed the envelope. -/
theorem claim_C10 :
    (∀ (remote : RemoteReply RouteData) (allStops : List Stop) (now : Int)
        (st : CacheState RouteMap) (routeId : String) (env : Envelope RouteMap)
        (e : RouteEndpoints),
      st.inMemory = some env → now - env.updatedAt ≤ TTL_MS →
      lookupKey env.payload (jsTrim routeId) = some e →
        getRouteEndpoints remote allStops now st routeId = (.ok e, st)) ∧
    (∀ (m : RouteMap) (k k2 : String) (v : RouteEndpoints),
      lookupKey (upsertKey m k v) k = some v ∧
      (k2 ≠ k → lookupKey (upsertKey m k v) k2 = lookupKey m k2)) ∧
    (∀ (remote : RemoteReply RouteData) (allStops : List Stop) (now : Int)
        (st : CacheState RouteMap) (routeId : String) (rd : RouteData),
      ((loadFreshCache now st).1.bind
        (fun env => lookupKey env.payload (jsTrim routeId))) = none →
      getRouteDetailsAPI remote allStops (jsTrim routeId) = .ok rd →
      ∃ env2 r,
        (getRouteEndpoints remote allStops now st routeId).1 = .ok r ∧
        (getRouteEndpoints remote allStops now st routeId).2.inMemory = some env2 ∧
        (getRouteEndpoints remote allStops now st routeId).2.persisted =
          some (.wellFormed env2.updatedAt env2.payload) ∧
        env2.updatedAt = now ∧
        lookupKey env2.payload (jsTrim routeId) = some r ∧
        (∀ k2, k2 ≠ jsTrim routeId →
          lookupKey env2.payload k2 =
            lookupKey (((loadFreshCache now st).1.map
              (fun env => env.payload)).getD []) k2)) ∧
    ((getRouteEndpoints c10RemoteB [] (40 * HOUR_MS) c10St2 "A").1 =
        .ok ⟨"A", "A1", "A2", false, 2⟩ ∧
      (getRouteEndpoints c10RemoteB [] (40 * HOUR_MS) c10St2 "A").2 = c10St2 ∧
      40 * HOUR_MS - 0 > TTL_MS) := by
  refine ⟨?_, ?_, ?_, rfl, by decide, by decide⟩
  · intro remote allStops now st routeId env e hmem hfresh hlook
    unfold getRouteEndpoints
    dsimp only
    have hload : loadFreshCache now st = (some env, st) := by
      unfold loadFreshCache
      rw [hmem]
      dsimp only
      rw [if_pos hfresh]
    rw [hload]
    dsimp only [Option.bind]
    rw [hlook]
  · intro m k k2 v
    exact ⟨lookup_upsert_self m k v, fun hne => lookup_upsert_other m k k2 v hne⟩
  · intro remote allStops now st routeId rd hmiss hdetail
    unfold getRouteEndpoints
    dsimp only
    rw [hmiss, hdetail]
    dsimp only
    refine ⟨_, _, rfl, rfl, rfl, rfl, lookup_upsert_self _ _ _,
      fun k2 hne => lookup_upsert_other _ _ _ _ hne⟩

/-- A hand-built fresh cache state for the C10 witness. -/
def c10Env : Envelope RouteMap := ⟨0, [("A", ⟨"A", "X", "Y", false, 2⟩)]⟩

/-- Witness for C10: a fresh envelope serves its entry verbatim, and a
miss-resolve from the empty cache produces a merged save at `now`. -/
theorem claim_C10_witness :
    getRouteEndpoints c10RemoteB [] 100 ⟨some c10Env, none⟩ "A" =
      (.ok ⟨"A", "X", "Y", false, 2⟩, ⟨some c10Env, none⟩) ∧
    (∃ env2 r,
      (getRouteEndpoints c10RemoteA [] 0 {} "A").1 = .ok r ∧
      (getRouteEndpoints c10RemoteA [] 0 {} "A").2.inMemory = some env2 ∧
      (getRouteEndpoints c10RemoteA [] 0 {} "A").2.persisted =
        some (.wellFormed env2.updatedAt env2.payload) ∧
      env2.updatedAt = 0 ∧
      lookupKey env2.payload (jsTrim "A") = some r ∧
      (∀ k2, k2 ≠ jsTrim "A" →
        lookupKey env2.payload k2 =
          lookupKey (((loadFreshCache 0 ({} : CacheState RouteMap)).1.map
            (fun env => env.payload)).getD []) k2)) :=
  ⟨claim_C10.1 c10RemoteB [] 100 ⟨some c10Env, none⟩ "A" c10Env
      ⟨"A", "X", "Y", false, 2⟩ rfl (by decide) rfl,
    claim_C10.2.2.1 c10RemoteA [] 0 {} "A"
      { features := some [{ name := some "A1", stop_sequence := some 1 },
        { name := some "A2", stop_sequence := some 2 }] } rfl rfl⟩

end OpenBMTC
